import Mathlib

/-!
Shallow embedding of `src/send_plates.py` (vlm-vfx/FMP_plate_pusher).

The program is a Flask endpoint that reads ShotGrid entities and creates
FileMaker records from them.  Python values flowing through the record
builder are modelled by `PyVal`; dictionaries are association lists in
insertion order (the ShotGrid payloads have unique keys, and lookup takes
the first match, which agrees with Python's dict on every representable
value).  Exceptions are modelled with `Except Unit`; network behaviour of
the two external systems is supplied through oracles (`FMOracle`).
-/

/-- Model of a Python runtime value as it appears in this program:
`None`, strings, integers, booleans, lists, and dicts with string keys.
(The program's mapped ShotGrid fields carry exactly these shapes.) -/
inductive PyVal where
  | none : PyVal
  | str : String → PyVal
  | int : Int → PyVal
  | bool : Bool → PyVal
  | list : List PyVal → PyVal
  | dict : List (String × PyVal) → PyVal

/-- Python truthiness (`bool(v)`) for the modelled values. -/
def PyVal.truthy : PyVal → Bool
  | .none => false
  | .str s => !s.isEmpty
  | .int n => n != 0
  | .bool b => b
  | .list l => !l.isEmpty
  | .dict d => !d.isEmpty

/-- Python `v is None`. -/
def PyVal.isNone : PyVal → Bool
  | .none => true
  | _ => false

/-- Python `d.get(k, dflt)` on a dict modelled as an association list. -/
def dictGetD (d : List (String × PyVal)) (k : String) (dflt : PyVal) : PyVal :=
  match d.find? (fun kv => kv.1 == k) with
  | some kv => kv.2
  | Option.none => dflt

/-- Python `k in d` on a dict. -/
def hasKey (d : List (String × PyVal)) (k : String) : Bool :=
  d.any (fun kv => kv.1 == k)

/-- Python `d[k] = v`: replace the value in place when the key exists,
append a new entry otherwise (insertion order is preserved). -/
def setItem (d : List (String × PyVal)) (k : String) (v : PyVal) :
    List (String × PyVal) :=
  if d.any (fun kv => kv.1 == k) then
    d.map (fun kv => if kv.1 == k then (k, v) else kv)
  else d ++ [(k, v)]

mutual
/-- Python `repr(v)` for the modelled values (quote escaping inside strings
is not modelled; no claim depends on it). -/
def pyRepr : PyVal → String
  | .none => "None"
  | .str s => "\x27" ++ s ++ "\x27"
  | .int n => toString n
  | .bool b => if b then "True" else "False"
  | .list l => "[" ++ String.intercalate ", " (pyReprList l) ++ "]"
  | .dict d => "\x7b" ++ String.intercalate ", " (pyReprPairs d) ++ "\x7d"

/-- Renders each list element with `pyRepr`. -/
def pyReprList : List PyVal → List String
  | [] => []
  | v :: vs => pyRepr v :: pyReprList vs

/-- Renders each dict entry with `pyRepr`. -/
def pyReprPairs : List (String × PyVal) → List String
  | [] => []
  | (k, v) :: kvs => ("\x27" ++ k ++ "\x27: " ++ pyRepr v) :: pyReprPairs kvs
end

/-- Python `str(v)`: scalars print their value, containers print their repr. -/
def pyStr : PyVal → String
  | .none => "None"
  | .str s => s
  | .int n => toString n
  | .bool b => if b then "True" else "False"
  | .list l => pyRepr (.list l)
  | .dict d => pyRepr (.dict d)

/-- FIELD_MAP from the source: SG field code → FMP field name, in the
dict-literal insertion order. -/
def FIELD_MAP : List (String × String) :=
  [("sg_latest_version", "Plate Name"),
   ("sg_slate", "Slate"),
   ("sg_camera_file_name", "Source File Name"),
   ("sg_source_in", "Timecode In"),
   ("sg_source_out", "Timecode Out"),
   ("sg_turnover", "Turnover Package"),
   ("sg_head_in", "Head In"),
   ("sg_cut_in", "Cut In"),
   ("sg_cut_out", "Cut Out"),
   ("sg_tail_out", "Tail Out"),
   ("sg_lut", "LUT"),
   ("description", "Notes"),
   ("shot", "ForeignKey")]

/-- SPECIAL_SG_KEYS from the source, as the (key, FMP field) pairs; the
attached lambda is `shotTransform` below. -/
def SPECIAL_SG_KEYS : List (String × String) := [("shot", "ForeignKey")]

/-- Python `sg_field_code in SPECIAL_SG_KEYS`. -/
def isSpecialKey (k : String) : Bool :=
  SPECIAL_SG_KEYS.any (fun p => p.1 == k)

/-- The lambda stored in SPECIAL_SG_KEYS for "shot":
`lambda sg_val: sg_val["id"] if isinstance(sg_val, dict) else sg_val`.
Indexing a dict without an "id" key raises KeyError, modelled as `.error`. -/
def shotTransform (v : PyVal) : Except Unit PyVal :=
  match v with
  | .dict d =>
    match d.find? (fun kv => kv.1 == "id") with
    | some kv => .ok kv.2
    | Option.none => .error ()
  | w => .ok w

/-- Python `SPECIAL_SG_KEYS[k][1]` applied to a value: the only entry is
"shot"; indexing any other key would raise KeyError (`.error`). -/
def specialTransformOf (k : String) (v : PyVal) : Except Unit PyVal :=
  match k with
  | "shot" => shotTransform v
  | _ => .error ()

/-- One element of the list branch of `sg_value_to_fmp_value`:
`it.get("name") or str(it.get("id"))` for dict elements, `str(it)` for the
rest.  `", ".join` later raises TypeError when a truthy non-string name is
appended, modelled as `.error` at the element. -/
def listElemRender (it : PyVal) : Except Unit String :=
  match it with
  | .dict d =>
    let n := dictGetD d "name" PyVal.none
    if n.truthy then
      match n with
      | .str s => .ok s
      | _ => .error ()
    else .ok (pyStr (dictGetD d "id" PyVal.none))
  | v => .ok (pyStr v)

/-- `sg_value_to_fmp_value` from the source.  Special keys go through their
registered transform with exceptions caught (`except: return None`); dicts
render as `get("name") or get("id")`; lists join the rendered elements with
", "; everything else passes through. -/
def sg_value_to_fmp_value (sg_field_code : String) (sg_value : PyVal) :
    Except Unit PyVal :=
  if isSpecialKey sg_field_code then
    match specialTransformOf sg_field_code sg_value with
    | .ok v => .ok v
    | .error _ => .ok PyVal.none
  else
    match sg_value with
    | .dict d =>
      let n := dictGetD d "name" PyVal.none
      .ok (if n.truthy then n else dictGetD d "id" PyVal.none)
    | .list l =>
      match l.mapM listElemRender with
      | .ok strs => .ok (.str (String.intercalate ", " strs))
      | .error e => .error e
    | v => .ok v

/-- `build_fields_to_query` helper: `list(dict.fromkeys(fields))` — removes
duplicates keeping the first occurrence. -/
def dedupKeepFirst (l : List String) : List String :=
  l.foldl (fun acc x => if x ∈ acc then acc else acc ++ [x]) []

/-- `build_fields_to_query` from the source: all FIELD_MAP keys in order,
"id" appended when absent, then de-duplicated preserving order. -/
def build_fields_to_query : List String :=
  let fields := FIELD_MAP.map Prod.fst
  let fields := if "id" ∈ fields then fields else fields ++ ["id"]
  dedupKeepFirst fields

/-- A fetched ShotGrid entity: the dict `sg.find` returns for one result. -/
abbrev Entity := List (String × PyVal)

/-- The per-field body of the record-builder loop in `index`, folded over
the FIELD_MAP entries still to process, with `acc` the `fieldData` dict so
far.  Mirrors lines 203-226 of the source: absent key → skip; special key →
transform with exceptions caught, skip on None; otherwise
`sg_value_to_fmp_value` (whose exceptions are NOT caught here and so
propagate), skip on None. -/
def buildFieldDataAux (entries : List (String × String)) (ent : Entity)
    (acc : List (String × PyVal)) : Except Unit (List (String × PyVal)) :=
  match entries with
  | [] => .ok acc
  | (sg_key, fmp_field) :: rest =>
    if hasKey ent sg_key then
      let sg_val := dictGetD ent sg_key PyVal.none
      if isSpecialKey sg_key then
        match specialTransformOf sg_key sg_val with
        | .error _ => buildFieldDataAux rest ent acc
        | .ok t =>
          if t.isNone then buildFieldDataAux rest ent acc
          else buildFieldDataAux rest ent (setItem acc fmp_field t)
      else
        match sg_value_to_fmp_value sg_key sg_val with
        | .error e => .error e
        | .ok value =>
          if value.isNone then buildFieldDataAux rest ent acc
          else buildFieldDataAux rest ent (setItem acc fmp_field value)
    else buildFieldDataAux rest ent acc

/-- The `fieldData` dict built for one entity (lines 202-226). -/
def buildFieldData (ent : Entity) : Except Unit (List (String × PyVal)) :=
  buildFieldDataAux FIELD_MAP ent []

/-- The value the loop would store for one FIELD_MAP entry of one entity,
or `Option.none` when the entry is skipped (key absent, transform raised,
or the rendered value is Python None).  A `.error` from
`sg_value_to_fmp_value` also yields `Option.none` here; in that case
`buildFieldDataAux` does not return `.ok` at all. -/
def fieldValue (ent : Entity) (sg_key : String) : Option PyVal :=
  if hasKey ent sg_key then
    let sg_val := dictGetD ent sg_key PyVal.none
    if isSpecialKey sg_key then
      match specialTransformOf sg_key sg_val with
      | .error _ => Option.none
      | .ok t => if t.isNone then Option.none else some t
    else
      match sg_value_to_fmp_value sg_key sg_val with
      | .error _ => Option.none
      | .ok v => if v.isNone then Option.none else some v
  else Option.none

/-- One iteration of the entity loop (lines 201-239): build the fieldData,
then either a skip status (empty fieldData) or a queued record plus its
status entry. -/
def processEntity (ent : Entity) :
    Except Unit (Option PyVal × PyVal) :=
  match buildFieldData ent with
  | .error e => .error e
  | .ok fieldData =>
    if fieldData.isEmpty then
      .ok (Option.none,
        .dict [("sg_id", dictGetD ent "id" PyVal.none),
               ("status", .str "skipped"),
               ("reason", .str "no mapped fields present")])
    else
      .ok (some (.dict [("fieldData", .dict fieldData)]),
        .dict [("sg_id", dictGetD ent "id" PyVal.none),
               ("status", .str "queued"),
               ("fields", .list (fieldData.map (fun kv => PyVal.str kv.1)))])

/-- The entity loop, accumulating `records_to_create`, `created_meta` and
`skipped_count` in order. -/
def buildRecordsAux : List Entity → List PyVal → List PyVal → Nat →
    Except Unit (List PyVal × List PyVal × Nat)
  | [], recs, meta, sk => .ok (recs, meta, sk)
  | ent :: rest, recs, meta, sk =>
    match processEntity ent with
    | .error e => .error e
    | .ok (Option.none, m) => buildRecordsAux rest recs (meta ++ [m]) (sk + 1)
    | .ok (some r, m) => buildRecordsAux rest (recs ++ [r]) (meta ++ [m]) sk

/-- Record-builder phase of `index` (lines 198-239). -/
def buildRecords (ents : List Entity) :
    Except Unit (List PyVal × List PyVal × Nat) :=
  buildRecordsAux ents [] [] 0

/-- The condition of the post-build safeguard (line 252):
`"fieldData" in r and r["fieldData"]`. -/
def safeguardPred (r : PyVal) : Bool :=
  match r with
  | .dict rd => hasKey rd "fieldData" && (dictGetD rd "fieldData" PyVal.none).truthy
  | _ => false

/-- The post-build safeguard (line 252):
`[r for r in records_to_create if "fieldData" in r and r["fieldData"]]`. -/
def safeguardFilter (records : List PyVal) : List PyVal :=
  records.filter safeguardPred

/-- Observable calls made to the FileMaker server during one request. -/
inductive Effect where
  | acquire
  | createCall
  | release
deriving BEq, DecidableEq

/-- Oracle for the FileMaker server's behaviour during one request:
the session POST (raising / status / parsed JSON body), and the records
POST (raising / status / parsed JSON body, `Option.none` when `r.json()`
raises). -/
structure FMOracle where
  sessionRaises : Bool
  sessionStatus : Nat
  sessionBody : PyVal
  createRaises : Bool
  createStatus : Nat
  createBody : Option PyVal

/-- `fm_get_token` from the source: non-2xx status or a missing/falsy
`response.token` raises; a raising POST or unparsable body (folded into
`raises`) also propagates.  Attribute access on a non-dict body raises. -/
def fm_get_token (raises : Bool) (status : Nat) (body : PyVal) :
    Except Unit PyVal :=
  if raises then .error ()
  else if status = 200 ∨ status = 201 then
    match body with
    | .dict d =>
      match dictGetD d "response" (.dict []) with
      | .dict rd =>
        let token := dictGetD rd "token" PyVal.none
        if token.truthy then .ok token else .error ()
      | _ => .error ()
    | _ => .error ()
  else .error ()

/-- Whether `fm_get_token` succeeds for this oracle. -/
def acquireOk (o : FMOracle) : Bool :=
  match fm_get_token o.sessionRaises o.sessionStatus o.sessionBody with
  | .ok _ => true
  | .error _ => false

/-- Python `len` over iteration, used for counting `response.data` entries;
iterating a non-iterable raises TypeError. -/
def iterLen : PyVal → Except Unit Nat
  | .list l => .ok l.length
  | .str s => .ok s.length
  | .dict d => .ok d.length
  | _ => .error ()

/-- Lines 288-294 and 303: count the entries of
`resp_json.get("response", {}).get("data", [])` and keep the
`response` section for the reply; `.get` on a non-dict raises. -/
def parseCreateResp (rj : PyVal) : Except Unit (Nat × PyVal) :=
  match rj with
  | .dict rjd =>
    let respSection := dictGetD rjd "response" (.dict [])
    match respSection with
    | .dict rd =>
      match iterLen (dictGetD rd "data" (.list [])) with
      | .error e => .error e
      | .ok n => .ok (n, respSection)
    | _ => .error ()
  | _ => .error ()

/-- Outcome of the request as observable at the HTTP boundary: a JSON reply
with status and body, an HTML reply (modelled as the values handed to the
template), or the 500 reply produced by the outermost `except`. -/
inductive HttpResult where
  | json (status : Nat) (body : PyVal)
  | html (params : List (String × PyVal))
  | serverError

/-- Lines 270-339: the FileMaker phase of `index` under the try/finally.
On every path after a token was obtained (`if token:` is true, since
`fm_get_token` never returns a falsy token) the finally block closes the
session once; when acquisition raised, no release happens. -/
def submitPhase (htmlMode : Bool) (o : FMOracle) (records2 : List PyVal)
    (meta : List PyVal) (skipped : Nat) (sgCount : Nat) :
    HttpResult × List Effect :=
  match fm_get_token o.sessionRaises o.sessionStatus o.sessionBody with
  | .error _ => (.serverError, [Effect.acquire])
  | .ok _ =>
    if o.createRaises then
      (.serverError, [Effect.acquire, Effect.createCall, Effect.release])
    else if o.createStatus = 200 ∨ o.createStatus = 201 then
      match o.createBody with
      | Option.none =>
        (.serverError, [Effect.acquire, Effect.createCall, Effect.release])
      | some rj =>
        match parseCreateResp rj with
        | .error _ =>
          (.serverError, [Effect.acquire, Effect.createCall, Effect.release])
        | .ok (fm_created, respSection) =>
          ((if htmlMode then
              .html [("sg_count", .int sgCount),
                     ("sent", .int records2.length),
                     ("created", .int fm_created),
                     ("skipped", .int skipped),
                     ("details", .list meta)]
            else
              .json 200 (.dict
                [("ok", .bool true),
                 ("requested", .int records2.length),
                 ("created", .int fm_created),
                 ("skipped", .int skipped),
                 ("shotgrid_requested", .int sgCount),
                 ("details", .list meta),
                 ("fmp_response", respSection)])),
           [Effect.acquire, Effect.createCall, Effect.release])
    else
      (.serverError, [Effect.acquire, Effect.createCall, Effect.release])

/-- The `index` handler after input parsing and the ShotGrid query, which
are abstracted: `sg_results` is what `sg.find` returned, `dbg` the DEBUG
flag (it only gates `log`, so it is threaded for the statements about it),
`htmlMode` whether `?html=1` was passed.  Returns the HTTP outcome and the
trace of FileMaker calls. -/
def index (dbg htmlMode : Bool) (sg_results : List Entity) (o : FMOracle) :
    HttpResult × List Effect :=
  match buildRecords sg_results with
  | .error _ => (.serverError, [])
  | .ok (records, meta, skipped) =>
    if records.isEmpty then
      ((if htmlMode then .html [("skipped", .int skipped)]
        else .json 200 (.dict
          [("ok", .bool true), ("created", .int 0),
           ("skipped", .int skipped), ("details", .list meta)])), [])
    else
      let records2 := safeguardFilter records
      if records2.isEmpty then
        ((if htmlMode then .html [("skipped", .int skipped)]
          else .json 200 (.dict
            [("ok", .bool true), ("created", .int 0),
             ("skipped", .int skipped), ("details", .list meta),
             ("error", .str "No records had fieldData to send to FileMaker")])), [])
      else submitPhase htmlMode o records2 meta skipped sg_results.length

/-- Removing one key from an entity dict; used to state that a failed
special transform behaves exactly as if the field were absent. -/
def removeKey (d : List (String × PyVal)) (k : String) :
    List (String × PyVal) :=
  d.filter (fun kv => !(kv.1 == k))

/-- Example entity whose only mapped field is an empty list (raw ShotGrid
value `[]` for `sg_lut`). -/
def lutEmptyEnt : Entity := [("id", PyVal.int 1), ("sg_lut", PyVal.list [])]

/-- Example entity with one populated mapped scalar field. -/
def descEnt : Entity := [("description", PyVal.str "hello"), ("id", PyVal.int 7)]

/-- The record built from `descEnt`. -/
def descRec : PyVal := PyVal.dict [("fieldData", PyVal.dict [("Notes", PyVal.str "hello")])]

/-- The status entry built from `descEnt`. -/
def descMeta : PyVal :=
  PyVal.dict [("sg_id", PyVal.int 7), ("status", PyVal.str "queued"),
              ("fields", PyVal.list [PyVal.str "Notes"])]

/-- Example entity all of whose mapped fields are absent or None. -/
def nullEnt : Entity := [("id", PyVal.int 2), ("description", PyVal.none)]

/-- The skip status entry built from `nullEnt`. -/
def nullSkipMeta : PyVal :=
  PyVal.dict [("sg_id", PyVal.int 2), ("status", PyVal.str "skipped"),
              ("reason", PyVal.str "no mapped fields present")]

/-- Example entity with one populated mapped field, id 10. -/
def refEnt : Entity := [("id", PyVal.int 10), ("sg_slate", PyVal.str "S1")]

/-- The status entry built from `refEnt`. -/
def refQueuedMeta : PyVal :=
  PyVal.dict [("sg_id", PyVal.int 10), ("status", PyVal.str "queued"),
              ("fields", PyVal.list [PyVal.str "Slate"])]

/-- Oracle for a fully successful FileMaker interaction: session created
with token "tok", batch create answered 200 with one acknowledgment. -/
def okOracle : FMOracle :=
  { sessionRaises := false, sessionStatus := 200,
    sessionBody := PyVal.dict [("response", PyVal.dict [("token", PyVal.str "tok")])],
    createRaises := false, createStatus := 200,
    createBody := some (PyVal.dict [("response", PyVal.dict
      [("data", PyVal.list [PyVal.dict [("recordId", PyVal.str "77")]])])]) }

/-- Example entity whose "shot" reference lacks an "id" sub-field, so the
registered special transform raises KeyError. -/
def badShotEnt : Entity :=
  [("shot", PyVal.dict [("name", PyVal.str "SH01")]), ("sg_slate", PyVal.str "A1")]

/-- Example entity with one usable mapped field (`sg_slate = "A"`) and one
list field whose element carries a truthy non-string name, so the generic
value transform's `", ".join` raises TypeError — an exception no handler
short of the outermost `except` catches. -/
def poisonEnt : Entity :=
  [("id", PyVal.int 5), ("sg_slate", PyVal.str "A"),
   ("sg_lut", PyVal.list [PyVal.dict [("name", PyVal.int 7), ("id", PyVal.int 3)]])]

/-- C9: the field list requested from ShotGrid equals the de-duplicated
sequence of all source field codes of FIELD_MAP in first-seen order, with
the entity's own identifier field "id" appended since it is not already
present, and the list contains no duplicates. -/
theorem fields_to_query_spec :
    build_fields_to_query =
      dedupKeepFirst (FIELD_MAP.map Prod.fst) ++
        (if "id" ∈ FIELD_MAP.map Prod.fst then [] else ["id"]) ∧
    build_fields_to_query.Nodup := by
  constructor <;> decide

/-- C2 (evaluation at the failing input): for an entity whose only mapped
field is the empty list, the value transform renders `""` and the loop's
`if value is None` check does not filter it out, so the empty string IS
written into the TargetRecord and the record is submitted — contradicting
the claim (and the source's own "skip None and empty" comment) that the
key would be omitted and `""` never written. -/
theorem empty_list_written_as_empty_string :
    sg_value_to_fmp_value "sg_lut" (PyVal.list []) = .ok (PyVal.str "") ∧
    buildRecords [lutEmptyEnt] =
      .ok ([PyVal.dict [("fieldData", PyVal.dict [("LUT", PyVal.str "")])]],
           [PyVal.dict [("sg_id", PyVal.int 1), ("status", PyVal.str "queued"),
                        ("fields", PyVal.list [PyVal.str "LUT"])]],
           0) :=
  ⟨rfl, rfl⟩

/-- Storing a field never empties the fieldData dict. -/
theorem setItem_ne_nil (d : List (String × PyVal)) (k : String) (v : PyVal) :
    setItem d k v ≠ [] := by
  unfold setItem
  split
  · intro h
    rw [List.map_eq_nil_iff] at h
    subst h
    simp_all
  · simp

/-- Once the fieldData accumulator is non-empty, the finished fieldData is
non-empty. -/
theorem buildFieldDataAux_acc_ne_nil (ent : Entity) :
    ∀ (entries : List (String × String)) (acc fd : List (String × PyVal)),
    acc ≠ [] → buildFieldDataAux entries ent acc = .ok fd → fd ≠ [] := by
  intro entries
  induction entries with
  | nil =>
    intro acc fd h hok
    simp only [buildFieldDataAux, Except.ok.injEq] at hok
    exact hok ▸ h
  | cons hd rest ih =>
    obtain ⟨k, f⟩ := hd
    intro acc fd h hok
    simp only [buildFieldDataAux] at hok
    split at hok
    · split at hok
      · split at hok
        · exact ih acc fd h hok
        · split at hok
          · exact ih acc fd h hok
          · exact ih _ fd (setItem_ne_nil _ _ _) hok
      · split at hok
        · simp at hok
        · split at hok
          · exact ih acc fd h hok
          · exact ih _ fd (setItem_ne_nil _ _ _) hok
    · exact ih acc fd h hok

/-- When every remaining FIELD_MAP entry is skipped, the fieldData
accumulator comes out unchanged. -/
theorem buildFieldDataAux_all_skipped (ent : Entity) :
    ∀ (entries : List (String × String)) (acc fd : List (String × PyVal)),
    (∀ p ∈ entries, fieldValue ent p.1 = Option.none) →
    buildFieldDataAux entries ent acc = .ok fd → fd = acc := by
  intro entries
  induction entries with
  | nil =>
    intro acc fd _ hok
    simp only [buildFieldDataAux, Except.ok.injEq] at hok
    exact hok.symm
  | cons hd rest ih =>
    obtain ⟨k, f⟩ := hd
    intro acc fd hall hok
    have hk := hall (k, f) (List.mem_cons_self _ _)
    have hrest : ∀ p ∈ rest, fieldValue ent p.1 = Option.none :=
      fun p hp => hall p (List.mem_cons_of_mem _ hp)
    simp only [buildFieldDataAux] at hok
    split at hok
    · split at hok
      · split at hok
        · exact ih acc fd hrest hok
        · split at hok
          · exact ih acc fd hrest hok
          · exfalso
            simp only [fieldValue] at hk
            simp_all
      · split at hok
        · simp at hok
        · split at hok
          · exact ih acc fd hrest hok
          · exfalso
            simp only [fieldValue] at hk
            simp_all
    · exact ih acc fd hrest hok

/-- When some FIELD_MAP entry stores a value, the finished fieldData is
non-empty. -/
theorem buildFieldDataAux_usable_ne_nil (ent : Entity) :
    ∀ (entries : List (String × String)) (acc fd : List (String × PyVal)),
    (∃ p ∈ entries, (fieldValue ent p.1).isSome = true) →
    buildFieldDataAux entries ent acc = .ok fd → fd ≠ [] := by
  intro entries
  induction entries with
  | nil =>
    intro acc fd hex _
    obtain ⟨p, hp, _⟩ := hex
    exact absurd hp (List.not_mem_nil p)
  | cons hd rest ih =>
    obtain ⟨k, f⟩ := hd
    intro acc fd hex hok
    simp only [buildFieldDataAux] at hok
    by_cases hhead : (fieldValue ent k).isSome = true
    · -- the head entry stores a value: from here the accumulator is
      -- non-empty, whatever the remaining entries do
      split at hok
      · split at hok
        · split at hok
          · exfalso; simp only [fieldValue] at hhead; simp_all
          · split at hok
            · exfalso; simp only [fieldValue] at hhead; simp_all
            · exact buildFieldDataAux_acc_ne_nil ent rest _ fd (setItem_ne_nil _ _ _) hok
        · split at hok
          · simp at hok
          · split at hok
            · exfalso; simp only [fieldValue] at hhead; simp_all
            · exact buildFieldDataAux_acc_ne_nil ent rest _ fd (setItem_ne_nil _ _ _) hok
      · exfalso; simp only [fieldValue] at hhead; simp_all
    · -- the usable entry is in the tail
      have hrest : ∃ p ∈ rest, (fieldValue ent p.1).isSome = true := by
        obtain ⟨p, hp, hs⟩ := hex
        rcases List.mem_cons.mp hp with heq | hmem
        · subst heq; exact absurd hs hhead
        · exact ⟨p, hmem, hs⟩
      split at hok
      · split at hok
        · split at hok
          · exact ih acc fd hrest hok
          · split at hok
            · exact ih acc fd hrest hok
            · exact buildFieldDataAux_acc_ne_nil ent rest _ fd (setItem_ne_nil _ _ _) hok
        · split at hok
          · simp at hok
          · split at hok
            · exact ih acc fd hrest hok
            · exact buildFieldDataAux_acc_ne_nil ent rest _ fd (setItem_ne_nil _ _ _) hok
      · exact ih acc fd hrest hok

/-- C1 (amended): for every fetched source entity whose field loop raises
no exception (i.e. `buildFieldData` returns `.ok`), the record builder emits
exactly one TargetRecord together with a "queued" status when at least one
FIELD_MAP entry evaluates to a usable (non-None) value, and emits zero
TargetRecords together with a "skipped" status carrying reason
"no mapped fields present" when every FIELD_MAP entry is absent or
evaluates to no value. -/
theorem record_builder_one_or_zero (ent : Entity)
    (fd : List (String × PyVal)) (h : buildFieldData ent = .ok fd) :
    ((∃ p ∈ FIELD_MAP, (fieldValue ent p.1).isSome = true) →
      processEntity ent = .ok
        (some (PyVal.dict [("fieldData", PyVal.dict fd)]),
         PyVal.dict [("sg_id", dictGetD ent "id" PyVal.none),
                     ("status", PyVal.str "queued"),
                     ("fields", PyVal.list (fd.map (fun kv => PyVal.str kv.1)))]))
    ∧ ((∀ p ∈ FIELD_MAP, fieldValue ent p.1 = Option.none) →
      processEntity ent = .ok
        (Option.none,
         PyVal.dict [("sg_id", dictGetD ent "id" PyVal.none),
                     ("status", PyVal.str "skipped"),
                     ("reason", PyVal.str "no mapped fields present")])) := by
  constructor
  · intro hex
    have hne : fd ≠ [] := buildFieldDataAux_usable_ne_nil ent FIELD_MAP [] fd hex h
    unfold processEntity
    rw [h]
    simp [List.isEmpty_iff, hne]
  · intro hall
    have hnil : fd = [] := buildFieldDataAux_all_skipped ent FIELD_MAP [] fd hall h
    unfold processEntity
    rw [h, hnil]
    simp

/-- Witness for C1 at a concrete entity with one usable mapped field. -/
theorem record_builder_one_or_zero_witness :
    buildFieldData descEnt = .ok [("Notes", PyVal.str "hello")] ∧
    processEntity descEnt = .ok
      (some (PyVal.dict [("fieldData", PyVal.dict [("Notes", PyVal.str "hello")])]),
       PyVal.dict [("sg_id", PyVal.int 7), ("status", PyVal.str "queued"),
                   ("fields", PyVal.list [PyVal.str "Notes"])]) :=
  ⟨rfl, (record_builder_one_or_zero descEnt [("Notes", PyVal.str "hello")] rfl).1
    ⟨("description", "Notes"), by decide, rfl⟩⟩

/-- C1 (counterexample to the original claim): `poisonEnt` carries the
usable mapped field `sg_slate = "A"`, yet the record builder produces zero
TargetRecords — not exactly one — because the generic transform of its
`sg_lut` list raises an uncaught TypeError, which propagates and fails the
whole request with a 500 before any record or status is emitted. -/
theorem usable_field_but_builder_raises :
    (("sg_slate", "Slate") ∈ FIELD_MAP ∧
     (fieldValue poisonEnt "sg_slate").isSome = true) ∧
    buildRecords [poisonEnt] = .error () ∧
    index false false [poisonEnt] okOracle = (.serverError, []) :=
  ⟨⟨by decide, rfl⟩, rfl, rfl⟩

/-- Every record the entity loop emits satisfies the safeguard predicate:
it is a dict with a non-empty "fieldData" entry. -/
theorem processEntity_good (ent : Entity) (r m : PyVal)
    (h : processEntity ent = .ok (some r, m)) : safeguardPred r = true := by
  unfold processEntity at h
  split at h
  · simp at h
  · split at h
    · simp at h
    · simp only [Except.ok.injEq, Prod.mk.injEq, Option.some.injEq] at h
      obtain ⟨hr, _⟩ := h
      subst hr
      rename_i fieldData hne
      simp only [safeguardPred, hasKey, dictGetD, List.any, List.find?,
        PyVal.truthy, beq_self_eq_true, Bool.true_and] at *
      simp_all

/-- All records accumulated by the entity loop satisfy the safeguard
predicate. -/
theorem buildRecordsAux_good :
    ∀ (ents : List Entity) (recs0 meta0 : List PyVal) (sk0 : Nat)
      (recs meta : List PyVal) (sk : Nat),
    (∀ r ∈ recs0, safeguardPred r = true) →
    buildRecordsAux ents recs0 meta0 sk0 = .ok (recs, meta, sk) →
    ∀ r ∈ recs, safeguardPred r = true := by
  intro ents
  induction ents with
  | nil =>
    intro recs0 meta0 sk0 recs meta sk hgood hok
    simp only [buildRecordsAux, Except.ok.injEq, Prod.mk.injEq] at hok
    obtain ⟨h1, _, _⟩ := hok
    exact h1 ▸ hgood
  | cons ent rest ih =>
    intro recs0 meta0 sk0 recs meta sk hgood hok
    simp only [buildRecordsAux] at hok
    split at hok
    · simp at hok
    · exact ih _ _ _ recs meta sk hgood hok
    · rename_i r m hproc
      refine ih _ _ _ recs meta sk ?_ hok
      intro x hx
      rcases List.mem_append.mp hx with hx | hx
      · exact hgood x hx
      · rw [List.mem_singleton.mp hx]
        exact processEntity_good ent r m hproc

/-- C10 (safety): every record the entity loop appends has non-empty
fieldData, so the post-build safeguard filter removes nothing — and hence
the subsequent "No records had fieldData to send to FileMaker" branch can
only trigger when the record list was already empty, which the earlier
short-circuit has excluded (the branch is unreachable). -/
theorem safeguard_filter_noop (ents : List Entity) (recs meta : List PyVal)
    (sk : Nat) (h : buildRecords ents = .ok (recs, meta, sk)) :
    (∀ r ∈ recs, safeguardPred r = true) ∧
    safeguardFilter recs = recs ∧
    (recs ≠ [] → safeguardFilter recs ≠ []) := by
  have hgood : ∀ r ∈ recs, safeguardPred r = true :=
    buildRecordsAux_good ents [] [] 0 recs meta sk (by simp) h
  have hfil : safeguardFilter recs = recs := by
    unfold safeguardFilter
    exact List.filter_eq_self.mpr hgood
  exact ⟨hgood, hfil, fun hne => by rw [hfil]; exact hne⟩

/-- Witness for C10 at a concrete entity list producing one record. -/
theorem safeguard_filter_noop_witness :
    buildRecords [descEnt] = .ok ([descRec], [descMeta], 0) ∧
    ((∀ r ∈ [descRec], safeguardPred r = true) ∧
     safeguardFilter [descRec] = [descRec] ∧
     ([descRec] ≠ [] → safeguardFilter [descRec] ≠ [])) :=
  ⟨rfl, safeguard_filter_noop [descEnt] [descRec] [descMeta] 0 rfl⟩

/-- The FileMaker phase's call trace: acquire, then — only when acquisition
succeeded — one batch-create call and one release, on every outcome of the
create call. -/
theorem submitPhase_trace (htmlMode : Bool) (o : FMOracle)
    (records2 meta : List PyVal) (skipped sgCount : Nat) :
    (submitPhase htmlMode o records2 meta skipped sgCount).2 =
      if acquireOk o = true then
        [Effect.acquire, Effect.createCall, Effect.release]
      else [Effect.acquire] := by
  unfold submitPhase acquireOk
  cases htok : fm_get_token o.sessionRaises o.sessionStatus o.sessionBody with
  | error e => simp
  | ok t =>
    simp only [if_pos rfl]
    split
    · rfl
    · split
      · split
        · rfl
        · split
          · rfl
          · rfl
      · rfl

/-- C4: session release is invoked exactly once per request whenever
session acquisition succeeded — including when the batch-create submission
fails or throws — and zero times otherwise, i.e. release is skipped only
when acquisition was never attempted or never succeeded. -/
theorem session_release_exactly_once (dbg htmlMode : Bool)
    (sg : List Entity) (o : FMOracle) :
    ((index dbg htmlMode sg o).2.count Effect.release) =
      if ((index dbg htmlMode sg o).2.contains Effect.acquire && acquireOk o) = true
      then 1 else 0 := by
  unfold index
  cases hb : buildRecords sg with
  | error e => simp
  | ok trip =>
    obtain ⟨recs, meta, sk⟩ := trip
    by_cases h1 : recs.isEmpty
    · simp [h1]
    · simp only [h1, if_false, Bool.false_eq_true]
      by_cases h2 : (safeguardFilter recs).isEmpty
      · simp [h2]
      · simp only [h2, if_false, Bool.false_eq_true]
        rw [submitPhase_trace]
        by_cases ha : acquireOk o = true
        · simp only [ha, if_true]
          decide
        · simp only [ha, if_false]
          decide

/-- C7: whenever the record builder produces an empty record sequence, the
request short-circuits with a reply carrying `created = 0` and the
accumulated skip statuses, and makes no call at all to the target system —
no session acquisition, no batch create, no release. -/
theorem empty_records_short_circuit (dbg htmlMode : Bool)
    (sg : List Entity) (o : FMOracle) (meta : List PyVal) (sk : Nat)
    (h : buildRecords sg = .ok ([], meta, sk)) :
    index dbg htmlMode sg o =
      ((if htmlMode then .html [("skipped", .int sk)]
        else .json 200 (.dict
          [("ok", .bool true), ("created", .int 0),
           ("skipped", .int sk), ("details", .list meta)])), []) := by
  unfold index
  rw [h]
  simp

/-- Witness for C7 at a concrete entity whose every mapped field is absent
or None, with a live oracle that is never consulted. -/
theorem empty_records_short_circuit_witness :
    buildRecords [nullEnt] = .ok ([], [nullSkipMeta], 1) ∧
    index false false [nullEnt] okOracle =
      (.json 200 (.dict
        [("ok", .bool true), ("created", .int 0),
         ("skipped", .int 1), ("details", .list [nullSkipMeta])]), []) :=
  ⟨rfl, empty_records_short_circuit false false [nullEnt] okOracle [nullSkipMeta] 1 rfl⟩

/-- Successful parsing of the create response pins down its shape: the body
was a dict and the kept section is its "response" entry (default `{}`). -/
theorem parseCreateResp_ok (rj : PyVal) (n : Nat) (resp : PyVal)
    (h : parseCreateResp rj = .ok (n, resp)) :
    ∃ rjd, rj = .dict rjd ∧ resp = dictGetD rjd "response" (.dict []) := by
  unfold parseCreateResp at h
  split at h
  · rename_i rjd
    refine ⟨rjd, rfl, ?_⟩
    dsimp only at h
    split at h
    · split at h
      · simp at h
      · simp only [Except.ok.injEq, Prod.mk.injEq] at h
        exact h.2.symm
    · simp at h
  · simp at h

/-- The JSON body of a successful submit phase, in full: requested is the
length of the submitted record list and fmp_response is the raw "response"
section of the create call's body. -/
theorem submitPhase_success_body (o : FMOracle) (records2 meta : List PyVal)
    (skipped sgCount : Nat) (s : Nat) (bd : List (String × PyVal))
    (tr : List Effect)
    (h : submitPhase false o records2 meta skipped sgCount =
      (.json s (.dict bd), tr)) :
    ∃ (created : Nat) (rjd : List (String × PyVal)),
      o.createBody = some (.dict rjd) ∧
      bd = [("ok", .bool true), ("requested", .int records2.length),
            ("created", .int created), ("skipped", .int skipped),
            ("shotgrid_requested", .int sgCount), ("details", .list meta),
            ("fmp_response", dictGetD rjd "response" (.dict []))] := by
  unfold submitPhase at h
  split at h
  · simp at h
  · split at h
    · simp at h
    · split at h
      · split at h
        · simp at h
        · rename_i rj hcb
          split at h
          · simp at h
          · rename_i created respSection hparse
            obtain ⟨rjd, hrj, hresp⟩ :=
              parseCreateResp_ok rj created respSection hparse
            simp only [if_neg (by simp : ¬ (false = true)),
              Prod.mk.injEq, HttpResult.json.injEq, PyVal.dict.injEq] at h
            refine ⟨created, rjd, hrj ▸ hcb, ?_⟩
            rw [← h.1.2, hresp]
      · simp at h

/-- C6: in every successful JSON result (the only kind of 200 body that
carries a "requested" key), the `requested` count equals the number of
TargetRecords the record builder produced — not the number of source
entities fetched. -/
theorem requested_equals_records_built (dbg : Bool) (sg : List Entity)
    (o : FMOracle) (recs meta : List PyVal) (sk : Nat)
    (bd : List (String × PyVal)) (tr : List Effect)
    (hb : buildRecords sg = .ok (recs, meta, sk))
    (h : index dbg false sg o = (.json 200 (.dict bd), tr))
    (hreq : hasKey bd "requested" = true) :
    dictGetD bd "requested" PyVal.none = PyVal.int recs.length := by
  unfold index at h
  rw [hb] at h
  dsimp only at h
  by_cases h1 : recs.isEmpty
  · rw [if_pos h1] at h
    simp only [Bool.false_eq_true, if_false, Prod.mk.injEq,
      HttpResult.json.injEq, PyVal.dict.injEq] at h
    obtain ⟨⟨-, hbd⟩, -⟩ := h
    subst hbd
    simp [hasKey] at hreq
  · rw [if_neg h1] at h
    have hgood : ∀ r ∈ recs, safeguardPred r = true :=
      buildRecordsAux_good sg [] [] 0 recs meta sk (by simp) hb
    have hfil : safeguardFilter recs = recs := by
      unfold safeguardFilter
      exact List.filter_eq_self.mpr hgood
    rw [hfil, if_neg h1] at h
    obtain ⟨created, rjd, -, hbd⟩ :=
      submitPhase_success_body o recs meta sk sg.length 200 bd tr h
    subst hbd
    rfl

/-- Witness for C6: two entities are fetched, one is skipped, one record is
built, and the successful reply reports `requested = 1` (while
`shotgrid_requested`, the fetched count, is 2). -/
theorem requested_equals_records_built_witness :
    buildRecords [refEnt, nullEnt] =
      .ok ([PyVal.dict [("fieldData", PyVal.dict [("Slate", PyVal.str "S1")])]],
           [refQueuedMeta, nullSkipMeta], 1) ∧
    dictGetD
      [("ok", .bool true), ("requested", .int 1), ("created", .int 1),
       ("skipped", .int 1), ("shotgrid_requested", .int 2),
       ("details", .list [refQueuedMeta, nullSkipMeta]),
       ("fmp_response", PyVal.dict
         [("data", PyVal.list [PyVal.dict [("recordId", PyVal.str "77")]])])]
      "requested" PyVal.none =
      PyVal.int
        ([PyVal.dict [("fieldData", PyVal.dict [("Slate", PyVal.str "S1")])]] : List PyVal).length ∧
    ([PyVal.dict [("fieldData", PyVal.dict [("Slate", PyVal.str "S1")])]] : List PyVal).length ≠
      ([refEnt, nullEnt] : List Entity).length :=
  ⟨rfl,
   requested_equals_records_built false [refEnt, nullEnt] okOracle
     [PyVal.dict [("fieldData", PyVal.dict [("Slate", PyVal.str "S1")])]]
     [refQueuedMeta, nullSkipMeta] 1
     [("ok", .bool true), ("requested", .int 1), ("created", .int 1),
      ("skipped", .int 1), ("shotgrid_requested", .int 2),
      ("details", .list [refQueuedMeta, nullSkipMeta]),
      ("fmp_response", PyVal.dict
        [("data", PyVal.list [PyVal.dict [("recordId", PyVal.str "77")]])])]
     [Effect.acquire, Effect.createCall, Effect.release]
     rfl rfl rfl,
   by decide⟩

/-- C3 (amended): in every successful JSON result (the only 200 body with
an "fmp_response" key), the raw target-system response body's "response"
section is ALWAYS included under `fmp_response`, for every value of the
DEBUG diagnostic flag — no opaque placeholder is ever substituted. -/
theorem raw_response_always_included (dbg : Bool) (sg : List Entity)
    (o : FMOracle) (bd : List (String × PyVal)) (tr : List Effect)
    (h : index dbg false sg o = (.json 200 (.dict bd), tr))
    (hfmp : hasKey bd "fmp_response" = true) :
    ∃ rjd, o.createBody = some (.dict rjd) ∧
      dictGetD bd "fmp_response" PyVal.none =
        dictGetD rjd "response" (.dict []) := by
  unfold index at h
  split at h
  · simp at h
  · rename_i recs meta sk heq
    dsimp only at h
    by_cases h1 : recs.isEmpty
    · rw [if_pos h1] at h
      simp only [Bool.false_eq_true, if_false, Prod.mk.injEq,
        HttpResult.json.injEq, PyVal.dict.injEq] at h
      obtain ⟨⟨-, hbd⟩, -⟩ := h
      subst hbd
      simp [hasKey] at hfmp
    · rw [if_neg h1] at h
      by_cases h2 : (safeguardFilter recs).isEmpty
      · rw [if_pos h2] at h
        simp only [Bool.false_eq_true, if_false, Prod.mk.injEq,
          HttpResult.json.injEq, PyVal.dict.injEq] at h
        obtain ⟨⟨-, hbd⟩, -⟩ := h
        subst hbd
        simp [hasKey] at hfmp
      · rw [if_neg h2] at h
        obtain ⟨created, rjd, hcb, hbd⟩ :=
          submitPhase_success_body o (safeguardFilter recs) meta sk
            sg.length 200 bd tr h
        subst hbd
        exact ⟨rjd, hcb, rfl⟩

/-- Witness for C3's amended statement at a concrete successful request
(here with the diagnostic flag set to true). -/
theorem raw_response_always_included_witness :
    index true false [refEnt] okOracle =
      (.json 200 (.dict
        [("ok", .bool true), ("requested", .int 1), ("created", .int 1),
         ("skipped", .int 0), ("shotgrid_requested", .int 1),
         ("details", .list [refQueuedMeta]),
         ("fmp_response", PyVal.dict
           [("data", PyVal.list [PyVal.dict [("recordId", PyVal.str "77")]])])]),
       [Effect.acquire, Effect.createCall, Effect.release]) ∧
    (∃ rjd, okOracle.createBody = some (.dict rjd) ∧
      dictGetD
        [("ok", .bool true), ("requested", .int 1), ("created", .int 1),
         ("skipped", .int 0), ("shotgrid_requested", .int 1),
         ("details", .list [refQueuedMeta]),
         ("fmp_response", PyVal.dict
           [("data", PyVal.list [PyVal.dict [("recordId", PyVal.str "77")]])])]
        "fmp_response" PyVal.none = dictGetD rjd "response" (.dict [])) :=
  ⟨rfl,
   raw_response_always_included true [refEnt] okOracle
     [("ok", .bool true), ("requested", .int 1), ("created", .int 1),
      ("skipped", .int 0), ("shotgrid_requested", .int 1),
      ("details", .list [refQueuedMeta]),
      ("fmp_response", PyVal.dict
        [("data", PyVal.list [PyVal.dict [("recordId", PyVal.str "77")]])])]
     [Effect.acquire, Effect.createCall, Effect.release] rfl rfl⟩

/-- C3 (counterexample): a concrete successful request with the diagnostic
flag NOT set (DEBUG = false): the reply still carries the raw FileMaker
response section verbatim under `fmp_response` — no opaque placeholder is
substituted, contrary to the claim. -/
theorem raw_response_leaks_without_flag :
    index false false [refEnt] okOracle =
      (.json 200 (.dict
        [("ok", .bool true), ("requested", .int 1), ("created", .int 1),
         ("skipped", .int 0), ("shotgrid_requested", .int 1),
         ("details", .list [refQueuedMeta]),
         ("fmp_response", PyVal.dict
           [("data", PyVal.list [PyVal.dict [("recordId", PyVal.str "77")]])])]),
       [Effect.acquire, Effect.createCall, Effect.release]) ∧
    okOracle.createBody = some (PyVal.dict
      [("response", PyVal.dict
        [("data", PyVal.list [PyVal.dict [("recordId", PyVal.str "77")]])])]) :=
  ⟨rfl, rfl⟩


/-- Key membership decides `find?` success on an entity dict. -/
theorem find?_isSome_of_hasKey (d : List (String × PyVal)) (k : String)
    (h : hasKey d k = true) :
    (d.find? (fun kv => kv.1 == k)).isSome = true := by
  rw [List.find?_isSome]
  unfold hasKey at h
  exact List.any_eq_true.mp h

/-- C5: an entity-reference raw value of a field without a registered
special transform renders as its `name` when a usable (truthy, i.e.
non-null and non-empty) name is present, else as its `id`; and the one
field with a registered special transform — "shot" — renders as the
reference's `id` whenever the reference carries one, regardless of any
`name` it also carries. -/
theorem reference_renders_name_else_id :
    (∀ (k : String) (d : List (String × PyVal)),
      isSpecialKey k = false →
      ((dictGetD d "name" PyVal.none).truthy = true →
        sg_value_to_fmp_value k (.dict d) = .ok (dictGetD d "name" PyVal.none)) ∧
      ((dictGetD d "name" PyVal.none).truthy = false →
        sg_value_to_fmp_value k (.dict d) = .ok (dictGetD d "id" PyVal.none)))
    ∧ (∀ (d : List (String × PyVal)),
      hasKey d "id" = true →
      sg_value_to_fmp_value "shot" (.dict d) = .ok (dictGetD d "id" PyVal.none)) := by
  constructor
  · intro k d hspec
    constructor
    · intro hname
      simp [sg_value_to_fmp_value, hspec, hname]
    · intro hname
      simp [sg_value_to_fmp_value, hspec, hname]
  · intro d hid
    have hs : (d.find? (fun kv => kv.1 == "id")).isSome = true :=
      find?_isSome_of_hasKey d "id" hid
    cases hf : d.find? (fun kv => kv.1 == "id") with
    | none => rw [hf] at hs; simp at hs
    | some kv =>
      simp [sg_value_to_fmp_value, isSpecialKey, SPECIAL_SG_KEYS,
        specialTransformOf, shotTransform, hf, dictGetD]

/-- Witness for C5: a named reference renders to its name, a reference
with an empty name renders to its id, and a "shot" reference with both a
name and an id renders to its id. -/
theorem reference_renders_name_else_id_witness :
    isSpecialKey "sg_turnover" = false ∧
    sg_value_to_fmp_value "sg_turnover"
      (.dict [("name", PyVal.str "TO_01"), ("id", PyVal.int 9)]) =
      .ok (PyVal.str "TO_01") ∧
    sg_value_to_fmp_value "sg_turnover"
      (.dict [("name", PyVal.none), ("id", PyVal.int 9)]) =
      .ok (PyVal.int 9) ∧
    hasKey [("name", PyVal.str "SH_010"), ("id", PyVal.int 22)] "id" = true ∧
    sg_value_to_fmp_value "shot"
      (.dict [("name", PyVal.str "SH_010"), ("id", PyVal.int 22)]) =
      .ok (PyVal.int 22) :=
  ⟨rfl,
   (reference_renders_name_else_id.1 "sg_turnover"
     [("name", PyVal.str "TO_01"), ("id", PyVal.int 9)] rfl).1 rfl,
   (reference_renders_name_else_id.1 "sg_turnover"
     [("name", PyVal.none), ("id", PyVal.int 9)] rfl).2 rfl,
   rfl,
   reference_renders_name_else_id.2
     [("name", PyVal.str "SH_010"), ("id", PyVal.int 22)] rfl⟩
/-- Unfolding `in` on a cons cell. -/
theorem hasKey_cons (kv : String × PyVal) (l : List (String × PyVal))
    (k : String) : hasKey (kv :: l) k = ((kv.1 == k) || hasKey l k) := rfl

/-- Unfolding `removeKey` on a cons cell. -/
theorem removeKey_cons (kv : String × PyVal) (rest : List (String × PyVal))
    (k : String) :
    removeKey (kv :: rest) k =
      if kv.1 == k then removeKey rest k else kv :: removeKey rest k := by
  simp only [removeKey, List.filter_cons]
  by_cases hk : (kv.1 == k) = true
  · simp [hk]
  · simp [hk]

/-- Unfolding `.get` on a cons cell. -/
theorem dictGetD_cons (kv : String × PyVal) (l : List (String × PyVal))
    (k : String) (dflt : PyVal) :
    dictGetD (kv :: l) k dflt =
      if kv.1 == k then kv.2 else dictGetD l k dflt := by
  simp only [dictGetD, List.find?_cons]
  by_cases hk : (kv.1 == k) = true
  · simp [hk]
  · simp [hk]

/-- The removed key is gone. -/
theorem hasKey_removeKey_self (d : List (String × PyVal)) (k : String) :
    hasKey (removeKey d k) k = false := by
  induction d with
  | nil => rfl
  | cons kv rest ih =>
    rw [removeKey_cons]
    by_cases hk : (kv.1 == k) = true
    · rw [if_pos hk]; exact ih
    · rw [if_neg hk, hasKey_cons, ih]
      simp_all

/-- Removing one key leaves membership of the others unchanged. -/
theorem hasKey_removeKey (d : List (String × PyVal)) (k k2 : String)
    (h : k2 ≠ k) : hasKey (removeKey d k) k2 = hasKey d k2 := by
  induction d with
  | nil => rfl
  | cons kv rest ih =>
    rw [removeKey_cons]
    by_cases hk : (kv.1 == k) = true
    · rw [if_pos hk, ih, hasKey_cons]
      have h2 : (kv.1 == k2) = false := by
        rw [beq_eq_false_iff_ne]
        intro he
        exact h (he ▸ beq_iff_eq.mp hk)
      rw [h2]
      simp
    · rw [if_neg hk, hasKey_cons, hasKey_cons, ih]

/-- Removing one key leaves lookups of the others unchanged. -/
theorem dictGetD_removeKey (d : List (String × PyVal)) (k k2 : String)
    (dflt : PyVal) (h : k2 ≠ k) :
    dictGetD (removeKey d k) k2 dflt = dictGetD d k2 dflt := by
  induction d with
  | nil => rfl
  | cons kv rest ih =>
    rw [removeKey_cons]
    by_cases hk : (kv.1 == k) = true
    · rw [if_pos hk, ih, dictGetD_cons]
      have h2 : (kv.1 == k2) = false := by
        rw [beq_eq_false_iff_ne]
        intro he
        exact h (he ▸ beq_iff_eq.mp hk)
      rw [h2, if_neg (by simp)]
    · rw [if_neg hk, dictGetD_cons, dictGetD_cons, ih]

/-- When the entity's "shot" value makes the registered special transform
raise, the per-field loop behaves exactly as if the "shot" field were
absent from the entity: the exception is caught, the entry is skipped, and
every other FIELD_MAP entry is processed unchanged. -/
theorem buildFieldDataAux_shot_raises (ent : Entity)
    (h1 : hasKey ent "shot" = true)
    (h2 : specialTransformOf "shot" (dictGetD ent "shot" PyVal.none) = .error ()) :
    ∀ (entries : List (String × String)) (acc : List (String × PyVal)),
    buildFieldDataAux entries ent acc =
      buildFieldDataAux entries (removeKey ent "shot") acc := by
  intro entries
  induction entries with
  | nil => intro acc; rfl
  | cons hd rest ih =>
    obtain ⟨k, f⟩ := hd
    intro acc
    by_cases hk : k = "shot"
    · subst hk
      have hsp : isSpecialKey "shot" = true := rfl
      simp only [buildFieldDataAux, h1, hasKey_removeKey_self, hsp, h2,
        Bool.false_eq_true, if_false, if_true]
      exact ih acc
    · have hk2 : k ≠ "shot" := hk
      have e1 : hasKey (removeKey ent "shot") k = hasKey ent k :=
        hasKey_removeKey ent "shot" k hk2
      have e2 : dictGetD (removeKey ent "shot") k PyVal.none =
          dictGetD ent k PyVal.none :=
        dictGetD_removeKey ent "shot" k PyVal.none hk2
      simp only [buildFieldDataAux, e1, e2]
      by_cases hhk : hasKey ent k = true
      · rw [if_pos hhk, if_pos hhk]
        by_cases hsp : isSpecialKey k = true
        · rw [if_pos hsp, if_pos hsp]
          cases ht : specialTransformOf k (dictGetD ent k PyVal.none) with
          | error e => exact ih acc
          | ok t =>
            dsimp only
            by_cases hn : t.isNone = true
            · rw [if_pos hn, if_pos hn]; exact ih acc
            · rw [if_neg hn, if_neg hn]; exact ih _
        · rw [if_neg hsp, if_neg hsp]
          cases hval : sg_value_to_fmp_value k (dictGetD ent k PyVal.none) with
          | error e => rfl
          | ok v =>
            dsimp only
            by_cases hn : v.isNone = true
            · rw [if_pos hn, if_pos hn]; exact ih acc
            · rw [if_neg hn, if_neg hn]; exact ih _
      · rw [if_neg hhk, if_neg hhk]; exact ih acc

/-- Storing a different key cannot introduce the key `F`. -/
theorem hasKey_setItem (d : List (String × PyVal)) (k F : String) (v : PyVal)
    (hne : k ≠ F) (h : hasKey d F = false) :
    hasKey (setItem d k v) F = false := by
  have hkF : (k == F) = false := beq_eq_false_iff_ne.mpr hne
  unfold setItem
  split
  · unfold hasKey at h ⊢
    rw [List.any_map]
    rw [List.any_eq_false] at h ⊢
    intro kv hkv
    by_cases hk : (kv.1 == k) = true
    · simp only [Function.comp, hk, if_true]
      simp [hkF]
    · simp only [Function.comp, hk, Bool.false_eq_true, if_false]
      exact h kv hkv
  · unfold hasKey at h ⊢
    rw [List.any_append]
    simp [h, hkF]

/-- A target field name whose every producing FIELD_MAP entry is skipped
never appears in the finished fieldData. -/
theorem buildFieldDataAux_no_target (ent : Entity) (F : String) :
    ∀ (entries : List (String × String)) (acc fd : List (String × PyVal)),
    (∀ p ∈ entries, p.2 = F → fieldValue ent p.1 = Option.none) →
    hasKey acc F = false →
    buildFieldDataAux entries ent acc = .ok fd → hasKey fd F = false := by
  intro entries
  induction entries with
  | nil =>
    intro acc fd _ hacc hok
    simp only [buildFieldDataAux, Except.ok.injEq] at hok
    exact hok ▸ hacc
  | cons hd rest ih =>
    obtain ⟨k, f⟩ := hd
    intro acc fd hall hacc hok
    have hrest : ∀ p ∈ rest, p.2 = F → fieldValue ent p.1 = Option.none :=
      fun p hp => hall p (List.mem_cons_of_mem _ hp)
    simp only [buildFieldDataAux] at hok
    split at hok
    · split at hok
      · split at hok
        · exact ih acc fd hrest hacc hok
        · split at hok
          · exact ih acc fd hrest hacc hok
          · by_cases hf : f = F
            · exfalso
              have hv := hall (k, f) (List.mem_cons_self _ _) hf
              simp only [fieldValue] at hv
              simp_all
            · exact ih _ fd hrest (hasKey_setItem acc f F _ hf hacc) hok
      · split at hok
        · simp at hok
        · split at hok
          · exact ih acc fd hrest hacc hok
          · by_cases hf : f = F
            · exfalso
              have hv := hall (k, f) (List.mem_cons_self _ _) hf
              simp only [fieldValue] at hv
              simp_all
            · exact ih _ fd hrest (hasKey_setItem acc f F _ hf hacc) hok
    · exact ih acc fd hrest hacc hok

/-- C8 (amended): an exception raised by the registered special transform
of the "shot" field — the only transform the loop wraps in try/except — is
caught and treated as no value: the "ForeignKey" field is omitted from the
TargetRecord, the entity's remaining fields are processed exactly as if
the failing field were absent, and the builder still returns normally
(that exception never propagates to fail the request). -/
theorem transform_exception_field_omitted (ent : Entity)
    (h1 : hasKey ent "shot" = true)
    (h2 : specialTransformOf "shot" (dictGetD ent "shot" PyVal.none) = .error ()) :
    buildFieldData ent = buildFieldData (removeKey ent "shot") ∧
    ∀ fd, buildFieldData ent = .ok fd → hasKey fd "ForeignKey" = false := by
  constructor
  · exact buildFieldDataAux_shot_raises ent h1 h2 FIELD_MAP []
  · intro fd hok
    refine buildFieldDataAux_no_target ent "ForeignKey" FIELD_MAP [] fd ?_ rfl hok
    intro p hp hpF
    have hp1 : p.1 = "shot" := by
      have hdec : ∀ q ∈ FIELD_MAP, q.2 = "ForeignKey" → q.1 = "shot" := by decide
      exact hdec p hp hpF
    rw [hp1]
    have hsp : isSpecialKey "shot" = true := rfl
    simp [fieldValue, h1, hsp, h2]

/-- Witness for C8: a "shot" reference without an "id" sub-field makes the
special transform raise; the built fieldData omits "ForeignKey", equals the
build of the entity with "shot" removed, and contains the other field. -/
theorem transform_exception_field_omitted_witness :
    hasKey badShotEnt "shot" = true ∧
    specialTransformOf "shot" (dictGetD badShotEnt "shot" PyVal.none) = .error () ∧
    buildFieldData badShotEnt = .ok [("Slate", PyVal.str "A1")] ∧
    (buildFieldData badShotEnt = buildFieldData (removeKey badShotEnt "shot") ∧
     ∀ fd, buildFieldData badShotEnt = .ok fd → hasKey fd "ForeignKey" = false) :=
  ⟨rfl, rfl, rfl, transform_exception_field_omitted badShotEnt rfl rfl⟩

/-- C8 (counterexample to the original claim): only the "shot" transform's
exceptions are caught.  The generic value transform of `sg_lut` on
`poisonEnt` raises (a truthy non-string name reaches `", ".join`), and that
exception is NOT caught: it aborts the field loop, no TargetRecord is
built, and the request fails with a 500 — the exception does propagate to
fail the request, contrary to the original claim. -/
theorem generic_transform_exception_propagates :
    sg_value_to_fmp_value "sg_lut"
      (PyVal.list [PyVal.dict [("name", PyVal.int 7), ("id", PyVal.int 3)]]) =
      .error () ∧
    buildFieldData poisonEnt = .error () ∧
    index false false [poisonEnt] okOracle = (.serverError, []) :=
  ⟨rfl, rfl, rfl⟩
